import Mathlib

/-!
Verification of the extraction-and-normalization pipeline of the
Form-data-extractor repository (`backend/agent.py`), shallowly embedded in
Lean 4.

The embedding covers:
* a JSON value type and a strict JSON reader modelling Python's
  `json.loads` (restricted to the RFC grammar; Python's `NaN`/`Infinity`
  extensions, surrogate-pair recombination in `\u` escapes, the int/float
  distinction and last-key-wins duplicate handling are not modelled —
  objects are kept as association lists in appearance order);
* `_parse_json_response` (whitespace stripping, markdown-fence stripping,
  parse-or-`raw_text`-fallback);
* the dimension-level behaviour of `preprocess_image` (the 28-pixel hard
  floor resize and the 512-pixel longest-side upscale, with Python's
  float arithmetic modelled exactly over ℚ and `int(...)` as `Int.floor`,
  since all involved quantities are nonnegative);
* the control flow of `extract_handwriting_huggingface` and
  `_translate_json_to_english`, with the two network providers modelled as
  oracles (a response text, or a raised exception) and the returned Python
  dicts modelled as association lists in literal order.  Langfuse tracing
  is pure logging in the source (every tracing failure is swallowed) and
  does not influence any returned value, so it is not modelled.
-/

namespace FormExtractor

/-- JSON values as produced by `json.loads`.  Object fields are kept as an
association list in their order of appearance.  A number literal is kept as
the exact fraction `n / d` spelled by its decimal text (not normalized;
Python's int/float distinction is not modelled). -/
inductive Json where
  | null : Json
  | bool (b : Bool) : Json
  | num (n : Int) (d : Nat) : Json
  | str (s : String) : Json
  | arr (elems : List Json) : Json
  | obj (fields : List (String × Json)) : Json

/-- JSON insignificant whitespace (RFC 8259). -/
def isJsonWs (c : Char) : Bool :=
  c = ' ' || c = '\t' || c = '\n' || c = '\r'

/-- Skip insignificant whitespace. -/
def skipWs (cs : List Char) : List Char :=
  cs.dropWhile isJsonWs

/-- Value of a run of decimal digits. -/
def digitsVal (ds : List Char) : Nat :=
  ds.foldl (fun n c => n * 10 + (c.toNat - 48)) 0

/-- Numeric value of one hexadecimal digit. -/
def hexDigitVal (c : Char) : Option Nat :=
  if '0' ≤ c ∧ c ≤ '9' then some (c.toNat - 48)
  else if 'a' ≤ c ∧ c ≤ 'f' then some (c.toNat - 87)
  else if 'A' ≤ c ∧ c ≤ 'F' then some (c.toNat - 55)
  else none

/-- Body of a JSON string literal, after the opening quote.  `acc` holds the
characters read so far, reversed.  Unescaped control characters are rejected,
as by `json.loads` with its default `strict=True`. -/
def parseStringBody : List Char → List Char → Option (String × List Char)
  | acc, '"' :: rest => some (String.mk acc.reverse, rest)
  | acc, '\\' :: 'u' :: a :: b :: c :: d :: rest =>
    match hexDigitVal a, hexDigitVal b, hexDigitVal c, hexDigitVal d with
    | some x, some y, some z, some w =>
      parseStringBody (Char.ofNat (((x * 16 + y) * 16 + z) * 16 + w) :: acc) rest
    | _, _, _, _ => none
  | acc, '\\' :: e :: rest =>
    match e with
    | '"' => parseStringBody ('"' :: acc) rest
    | '\\' => parseStringBody ('\\' :: acc) rest
    | '/' => parseStringBody ('/' :: acc) rest
    | 'b' => parseStringBody ('\x08' :: acc) rest
    | 'f' => parseStringBody ('\x0C' :: acc) rest
    | 'n' => parseStringBody ('\n' :: acc) rest
    | 'r' => parseStringBody ('\r' :: acc) rest
    | 't' => parseStringBody ('\t' :: acc) rest
    | _ => none
  | acc, c :: rest =>
    if c.toNat < 32 then none else parseStringBody (c :: acc) rest
  | _, [] => none

/-- Assemble a JSON number from sign, integer digits, optional fraction
digits and exponent: the exact value `±(ip.fp) · 10^e` as a fraction. -/
def mkNum (neg : Bool) (ip : List Char) (fp : Option (List Char)) (e : Int) : Json :=
  let fs := fp.getD []
  let mAbs : Int := (digitsVal ip * 10 ^ fs.length + digitsVal fs : Nat)
  let m : Int := if neg then -mAbs else mAbs
  if 0 ≤ e then .num (m * 10 ^ e.toNat) (10 ^ fs.length)
  else .num m (10 ^ fs.length * 10 ^ (-e).toNat)

/-- JSON number literal (RFC grammar: no leading zeros, no bare `-`, a
fraction or exponent part must carry at least one digit). -/
def parseNumber (cs : List Char) : Option (Json × List Char) :=
  let p : Bool × List Char := match cs with
    | '-' :: rest => (true, rest)
    | _ => (false, cs)
  let neg := p.1
  let cs1 := p.2
  let intDigits := cs1.takeWhile Char.isDigit
  let cs2 := cs1.drop intDigits.length
  if intDigits = [] then none
  else if 1 < intDigits.length ∧ intDigits.head? = some '0' then none
  else
    let q : Option (List Char) × List Char := match cs2 with
      | '.' :: rest =>
        let fd := rest.takeWhile Char.isDigit
        (some fd, rest.drop fd.length)
      | _ => (none, cs2)
    let fracDigits := q.1
    let cs3 := q.2
    if fracDigits = some [] then none
    else
      match cs3 with
      | e :: rest =>
        if e = 'e' ∨ e = 'E' then
          let r : Int × List Char := match rest with
            | '+' :: r1 => (1, r1)
            | '-' :: r1 => (-1, r1)
            | _ => (1, rest)
          let eds := r.2.takeWhile Char.isDigit
          if eds = [] then none
          else some (mkNum neg intDigits fracDigits (r.1 * (digitsVal eds : Int)),
                     r.2.drop eds.length)
        else some (mkNum neg intDigits fracDigits 0, cs3)
      | [] => some (mkNum neg intDigits fracDigits 0, [])

mutual

/-- One JSON value, preceded by optional whitespace.  Fuelled recursion; the
fuel provided by `jsonLoads` always suffices because every recursive call
consumes at least one input character per two fuel units. -/
def parseValue : Nat → List Char → Option (Json × List Char)
  | 0, _ => none
  | fuel + 1, cs =>
    match skipWs cs with
    | [] => none
    | '{' :: rest =>
      (match skipWs rest with
       | '}' :: rest2 => some (.obj [], rest2)
       | _ =>
         match parseFieldList fuel rest with
         | some (fs, rest2) => some (.obj fs, rest2)
         | none => none)
    | '[' :: rest =>
      (match skipWs rest with
       | ']' :: rest2 => some (.arr [], rest2)
       | _ =>
         match parseElemList fuel rest with
         | some (xs, rest2) => some (.arr xs, rest2)
         | none => none)
    | '"' :: rest =>
      (match parseStringBody [] rest with
       | some (s, rest2) => some (.str s, rest2)
       | none => none)
    | 't' :: 'r' :: 'u' :: 'e' :: rest => some (.bool true, rest)
    | 'f' :: 'a' :: 'l' :: 's' :: 'e' :: rest => some (.bool false, rest)
    | 'n' :: 'u' :: 'l' :: 'l' :: rest => some (.null, rest)
    | c :: rest =>
      if c = '-' ∨ c.isDigit then parseNumber (c :: rest) else none

/-- Comma-separated array elements, up to and including the closing `]`. -/
def parseElemList : Nat → List Char → Option (List Json × List Char)
  | 0, _ => none
  | fuel + 1, cs =>
    match parseValue fuel cs with
    | none => none
    | some (j, rest) =>
      match skipWs rest with
      | ',' :: rest2 =>
        (match parseElemList fuel rest2 with
         | some (xs, rest3) => some (j :: xs, rest3)
         | none => none)
      | ']' :: rest2 => some ([j], rest2)
      | _ => none

/-- Comma-separated object members, up to and including the closing brace. -/
def parseFieldList : Nat → List Char → Option (List (String × Json) × List Char)
  | 0, _ => none
  | fuel + 1, cs =>
    match skipWs cs with
    | '"' :: rest =>
      (match parseStringBody [] rest with
       | none => none
       | some (k, rest2) =>
         match skipWs rest2 with
         | ':' :: rest3 =>
           (match parseValue fuel rest3 with
            | none => none
            | some (v, rest4) =>
              match skipWs rest4 with
              | ',' :: rest5 =>
                (match parseFieldList fuel rest5 with
                 | some (fs, rest6) => some ((k, v) :: fs, rest6)
                 | none => none)
              | '}' :: rest5 => some ([(k, v)], rest5)
              | _ => none)
         | _ => none)
    | _ => none

end

/-- Model of Python's `json.loads`: parse exactly one JSON document,
allowing surrounding whitespace, rejecting trailing garbage.  `none` models
a raised `json.JSONDecodeError`. -/
def jsonLoads (s : String) : Option Json :=
  match parseValue (2 * s.length + 2) s.data with
  | some (j, rest) => if skipWs rest = [] then some j else none
  | none => none

example : jsonLoads "\x7b\"a\":1\x7d" = some (.obj [("a", .num 1 1)]) := rfl
example : jsonLoads "\x7b\"a\": 1\x7d" = some (.obj [("a", .num 1 1)]) := rfl
example : jsonLoads "[1, 2]" = some (.arr [.num 1 1, .num 2 1]) := rfl
example : jsonLoads "not json" = none := rfl
example : jsonLoads " true " = some (.bool true) := rfl
example : jsonLoads "-1.5e1" = some (.num (-150) 10) := rfl
example : jsonLoads "01" = none := rfl
example : jsonLoads "" = none := rfl

/-- Characters removed by Python's argumentless `str.strip()` (ASCII
whitespace; the rarely relevant non-ASCII Unicode spaces are not
modelled). -/
def isPySpace (c : Char) : Bool :=
  c = ' ' || c = '\t' || c = '\n' || c = '\r' || c = '\x0b' || c = '\x0c'

/-- Python `text.strip()`. -/
def pyStrip (s : String) : String :=
  ⟨((s.data.dropWhile isPySpace).reverse.dropWhile isPySpace).reverse⟩

/-- `startsWithChars s p`: the character list `s` begins with `p`. -/
def startsWithChars : List Char → List Char → Bool
  | _, [] => true
  | [], _ :: _ => false
  | c :: cs, p :: ps => c = p && startsWithChars cs ps

/-- Python `s.startswith(p)` (by characters). -/
def pyStartsWith (s p : String) : Bool :=
  startsWithChars s.data p.data

/-- Python `s.endswith(p)` (by characters). -/
def pyEndsWith (s p : String) : Bool :=
  startsWithChars s.data.reverse p.data.reverse

/-- Python `s[n:]`: drop the first `n` characters. -/
def pyDrop (s : String) (n : Nat) : String :=
  ⟨s.data.drop n⟩

/-- Python `s[:-n]` (for `0 < n ≤ len(s)`): drop the last `n` characters. -/
def pyDropRight (s : String) (n : Nat) : String :=
  ⟨s.data.take (s.data.length - n)⟩

/-- Python `s.lower()` (ASCII case folding; no claim involves non-ASCII
letters). -/
def pyLower (s : String) : String :=
  ⟨s.data.map Char.toLower⟩

/-- The fence-stripping portion of `_parse_json_response`
(`backend/agent.py`, lines 337-346): strip whitespace, then drop a leading
"```json" marker, then a leading "```" marker, then a trailing "```"
marker (each test performed on the text as transformed so far, mirroring
the three sequential `if` statements), then strip whitespace again. -/
def stripCodeFences (text : String) : String :=
  let t0 := pyStrip text
  let t1 := if pyStartsWith t0 "```json" then pyDrop t0 7 else t0
  let t2 := if pyStartsWith t1 "```" then pyDrop t1 3 else t1
  let t3 := if pyEndsWith t2 "```" then pyDropRight t2 3 else t2
  pyStrip t3

/-- `HandwritingExtractionAgent._parse_json_response`
(`backend/agent.py`, lines 335-351): fence-strip, then `json.loads`; a
`JSONDecodeError` is answered with the `{"raw_text": ...}` fallback. -/
def parseJsonResponse (text : String) : Json :=
  match jsonLoads (stripCodeFences text) with
  | some j => j
  | none => .obj [("raw_text", .str (stripCodeFences text))]

/-- The hard-floor guard of `preprocess_image` (`backend/agent.py`,
lines 63-65), at the level of image dimensions: a dimension below 28
pixels is brought up to 28, each axis independently. -/
def floorGuardDims (w h : Nat) : Nat × Nat :=
  if w < 28 ∨ h < 28 then (max 28 w, max 28 h) else (w, h)

/-- Round to an integer, half to even — the tie rule of IEEE 754
round-to-nearest. -/
def roundHalfEven (y : ℚ) : ℤ :=
  if y - ⌊y⌋ < 1/2 then ⌊y⌋
  else if 1/2 < y - ⌊y⌋ then ⌊y⌋ + 1
  else if ⌊y⌋ % 2 = 0 then ⌊y⌋ else ⌊y⌋ + 1

/-- The value of a positive rational rounded to the nearest IEEE 754
binary64 double: 53-bit significand, round to nearest, ties to even.  The
exponent is left unbounded: every value arising in `preprocess_image`'s
upscale lies between 1 and 513, far from binary64's overflow and
subnormal ranges, where this model and binary64 agree exactly.
Nonpositive input does not occur in the program. -/
def roundDouble (x : ℚ) : ℚ :=
  if x ≤ 0 then 0
  else
    let e : ℤ := Int.log 2 x - 52
    (roundHalfEven (x / 2 ^ e) : ℚ) * 2 ^ e

/-- The conditional 512-pixel upscale of `preprocess_image`
(`backend/agent.py`, lines 82-89), at the level of image dimensions.
Python computes `scale = 512 / max(w, h)` and `int(w * scale)` in IEEE
binary64 arithmetic: the division and the multiplication are each
correctly rounded (modelled by `roundDouble`; 512, `max(w, h)`, `w` and
`h` are integers below 2^53, hence exactly representable), and `int`
truncates — flooring, since the values are positive. -/
def upscaleDims (w h : Nat) : Nat × Nat :=
  if max w h < 512 then
    let scale : ℚ := roundDouble (512 / ((max w h : Nat) : ℚ))
    ((⌊roundDouble ((w : ℚ) * scale)⌋).toNat, (⌊roundDouble ((h : ℚ) * scale)⌋).toNat)
  else (w, h)

/-- `preprocess_image` (`backend/agent.py`, lines 58-91) restricted to what
it does to the image dimensions: the hard-floor guard runs first, then the
dimension-preserving enhancement steps (RGB conversion, contrast 1.5,
sharpness 1.3, 3×3 median filter — none of which changes the size), then
the conditional 512-pixel longest-side upscale. -/
def preprocessDims (w h : Nat) : Nat × Nat :=
  let p := floorGuardDims w h
  upscaleDims p.1 p.2

/-- Python values as they appear in the dicts returned by
`extract_handwriting_huggingface`: `None`, booleans, strings, parsed JSON
payloads, and nested dicts (for the `metadata` entry). -/
inductive PyVal where
  | pyNone : PyVal
  | bool (b : Bool) : PyVal
  | str (s : String) : PyVal
  | json (j : Json) : PyVal
  | pyDict (fields : List (String × PyVal)) : PyVal

/-- A raised Python exception: its type name (`type(e).__name__`) and its
message (`str(e)`). -/
structure PyErr where
  typeName : String
  msg : String

/-- The provider-configuration state of `HandwritingExtractionAgent`:
`hfConfigured` models `self.hf_client is not None` (an `HF_TOKEN` was
present), `groqConfigured` models `self.groq_client is not None` (a
`GROQ_API_KEY` was present).  Langfuse tracing never influences a returned
value (every tracing failure is swallowed), so it is not part of the
state. -/
structure AgentConfig where
  hfConfigured : Bool
  groqConfigured : Bool

/-- The behaviour of the external world during one run: whether opening /
encoding the image raises, and what each provider call does (`Except.ok`
= the response text, `Except.error` = the call raises). -/
structure ProviderBehavior where
  imageError : Option PyErr
  visionResult : Except PyErr String
  transResult : Except PyErr String

/-- Observable effects of one run: how many vision-provider requests and
translation-provider requests were issued, and the structured values that
were serialized into translation requests. -/
structure Effects where
  visionCalls : Nat
  translateCalls : Nat
  translationInputs : List Json

/-- The OCR instruction prompt built by `extract_handwriting_huggingface`
(`backend/agent.py`, lines 154-178), parameterized only by the language
name. -/
def extractionPrompt (language : String) : String :=
  "You are an expert OCR system specialized in reading handwritten text with maximum accuracy.\n\nThis document is written in " ++ language ++
  ". Please read and extract the text in " ++ language ++
  ".\n\nAnalyze this handwritten document with extreme care and extract ALL the information you can see.\n\nCRITICAL INSTRUCTIONS FOR MAXIMUM ACCURACY:\n1. Read each character and word carefully - examine the image in detail\n2. DO NOT assume or hallucinate any fields - only extract what is clearly visible\n3. Pay special attention to:\n   - Numbers (phone numbers, dates, policy numbers, etc.) - read each digit precisely\n   - Names - read each letter carefully, including capitalization\n   - Addresses - read street names, numbers, and city names accurately\n   - Email addresses - verify @ symbols and domain names\n4. For partially readable text, extract what you can see clearly, even if incomplete\n5. If text is completely illegible or blank, mark it as \"unreadable\" (not null)\n6. Return the data as clean, structured JSON with proper nesting\n7. Create field names based on actual labels, headings, and form structure you see (in " ++ language ++
  ")\n8. Preserve the exact logical structure and grouping of information\n9. Be extremely precise with values - read numbers and text character by character\n10. Double-check your extraction before returning the JSON\n\nIMPORTANT: Read slowly and carefully. Accuracy is more important than speed.\nReturn ONLY valid JSON with no additional text, markdown, or explanation before or after.\nThe JSON should have descriptive keys based on the actual content structure."

/-- `HandwritingExtractionAgent._translate_json_to_english`
(`backend/agent.py`, lines 353-432).  If no Groq client is configured the
data is returned untouched with no request issued.  Otherwise one request
is issued whose prompt embeds `json.dumps(data, ensure_ascii=False,
indent=2)` — recorded here as the submitted value; on success the raw
response text goes through `_parse_json_response` (line 417); if the call
raises, the exception is caught and the original data returned
(line 432).  The returned pair is (result, values submitted to the
translation provider). -/
def translateJsonToEnglish (groqConfigured : Bool) (transResult : Except PyErr String)
    (data : Json) : Json × List Json :=
  if groqConfigured = false then (data, [])
  else
    match transResult with
    | .ok translatedText => (parseJsonResponse translatedText, [data])
    | .error _ => (data, [data])

/-- The dict built by the `except` handler of
`extract_handwriting_huggingface` (`backend/agent.py`, lines 303-312), in
literal key order. -/
def failureDict (filename : String) (prompt : PyVal) (e : PyErr) : List (String × PyVal) :=
  [("success", .bool false),
   ("filename", .str filename),
   ("error", .str e.msg),
   ("message", .str "Failed to extract handwriting using HuggingFace"),
   ("prompt", prompt),
   ("metadata", .pyDict [("error_type", .str e.typeName)])]

/-- `HandwritingExtractionAgent.extract_handwriting_huggingface`
(`backend/agent.py`, lines 129-333), returning the result dict (an
association list in literal key order) together with the run's observable
effects.  Control flow mirrored from the source: the unconfigured-client
early return (lines 133-138); the big `try` covering image open/encode
(modelled by `imageError`), prompt construction, the provider call
(`visionResult`), `_parse_json_response`, and the conditional translation
step guarded by `language.lower() != "english" and self.groq_client`
(line 265) whose own failure is caught (lines 266-269); the success dict
(lines 273-279) whose message appends " and translated to English"
whenever `language.lower() != 'english'` (line 278); and the `except`
handler's failure dict (lines 303-312).  The elapsed duration and
Langfuse updates only feed trace metadata, never the returned dict. -/
def extractHandwritingHuggingface (cfg : AgentConfig) (pb : ProviderBehavior)
    (filename language : String) : List (String × PyVal) × Effects :=
  if cfg.hfConfigured = false then
    ([("success", .bool false),
      ("error", .str "HuggingFace client not initialized"),
      ("prompt", .pyNone)],
     ⟨0, 0, []⟩)
  else
    match pb.imageError with
    | some e => (failureDict filename .pyNone e, ⟨0, 0, []⟩)
    | none =>
      let prompt := extractionPrompt language
      match pb.visionResult with
      | .error e => (failureDict filename (.str prompt) e, ⟨1, 0, []⟩)
      | .ok extractedText =>
        let structuredData := parseJsonResponse extractedText
        let doTranslate : Bool := (pyLower language != "english") && cfg.groqConfigured
        let td : Json × List Json :=
          if doTranslate then
            translateJsonToEnglish cfg.groqConfigured pb.transResult structuredData
          else (structuredData, [])
        let message := "Handwriting extracted successfully using HuggingFace" ++
          (if pyLower language != "english" then " and translated to English" else "")
        ([("success", .bool true),
          ("filename", .str filename),
          ("extracted_data", .json td.1),
          ("prompt", .str prompt),
          ("message", .str message)],
         ⟨1, if doTranslate then 1 else 0, td.2⟩)

/-- `HandwritingExtractionAgent.extract_handwriting` (`backend/agent.py`,
lines 126-127): delegates directly to
`extract_handwriting_huggingface`. -/
def extractHandwriting (cfg : AgentConfig) (pb : ProviderBehavior)
    (filename language : String) : List (String × PyVal) × Effects :=
  extractHandwritingHuggingface cfg pb filename language

/-! ## General lemmas about the Response Parser -/

/-- When the fence-stripped text is rejected by `json.loads`, the parser
answers with the `raw_text` fallback built from that fence-stripped
text. -/
theorem parseJsonResponse_of_loads_none (s : String)
    (h : jsonLoads (stripCodeFences s) = none) :
    parseJsonResponse s = .obj [("raw_text", .str (stripCodeFences s))] := by
  unfold parseJsonResponse
  rw [h]

/-- When the fence-stripped text is parsed by `json.loads`, the parser
returns the parsed value itself, whatever its top-level shape. -/
theorem parseJsonResponse_of_loads_some (s : String) (j : Json)
    (h : jsonLoads (stripCodeFences s) = some j) :
    parseJsonResponse s = j := by
  unfold parseJsonResponse
  rw [h]

/-! ## Claims about the Response Parser -/

/-- C1: the claim says `_parse_json_response` only ever returns a mapping
or the `raw_text` fallback mapping.  The code contradicts its own
`-> Dict[str, Any]` annotation: for the valid-JSON input "[1, 2]" it
returns the top-level JSON list `[1, 2]` unchanged. -/
theorem c1_parse_returns_toplevel_list :
    parseJsonResponse "[1, 2]" = .arr [.num 1 1, .num 2 1] := rfl

/-- C2 (amended): when the fence-stripped text is not valid JSON,
`_parse_json_response` never raises and returns the single-key mapping
whose `raw_text` value is the *fence-stripped*, whitespace-stripped text —
not the original input merely stripped of whitespace. -/
theorem c2_fallback_is_fence_stripped_text (s : String)
    (h : jsonLoads (stripCodeFences s) = none) :
    parseJsonResponse s = .obj [("raw_text", .str (stripCodeFences s))] :=
  parseJsonResponse_of_loads_none s h

/-- C2 witness: the amended statement at the concrete input "not json". -/
theorem c2_fallback_witness :
    parseJsonResponse "not json" = .obj [("raw_text", .str (stripCodeFences "not json"))] :=
  c2_fallback_is_fence_stripped_text "not json" rfl

/-- C2 counterexample: for the fenced non-JSON input "```\nhello\n```" the
fallback's `raw_text` is the fence-stripped "hello", which differs from the
original text stripped of leading/trailing whitespace (that still carries
both fences), so the claimed lossless "original stripped text" fallback is
false at this input. -/
theorem c2_counterexample_fallback_drops_fences :
    parseJsonResponse "```\nhello\n```" = .obj [("raw_text", .str "hello")] ∧
    pyStrip "```\nhello\n```" = "```\nhello\n```" ∧
    ("hello" : String) ≠ "```\nhello\n```" :=
  ⟨rfl, rfl, by decide⟩

/-- C3: the spec's four concrete Response Parser test vectors hold on the
code: "```json"-fenced JSON, bare-"```"-fenced JSON and unfenced JSON all
parse to the mapping `a ↦ 1`, and "not json" yields the fallback. -/
theorem c3_parser_test_vectors :
    parseJsonResponse "```json\n\x7b\"a\":1\x7d\n```" = .obj [("a", .num 1 1)] ∧
    parseJsonResponse "```\n\x7b\"a\":1\x7d\n```" = .obj [("a", .num 1 1)] ∧
    parseJsonResponse "\x7b\"a\": 1\x7d" = .obj [("a", .num 1 1)] ∧
    parseJsonResponse "not json" = .obj [("raw_text", .str "not json")] :=
  ⟨rfl, rfl, rfl, rfl⟩

/-! ## Lemmas about the Image Normalizer's dimensions -/

theorem floorGuardDims_le (w h : Nat) :
    28 ≤ (floorGuardDims w h).1 ∧ 28 ≤ (floorGuardDims w h).2 := by
  by_cases hc : w < 28 ∨ h < 28
  · simp only [floorGuardDims, hc, if_true]
    exact ⟨Nat.le_max_left _ _, Nat.le_max_left _ _⟩
  · simp only [floorGuardDims, hc, if_false]
    push_neg at hc
    exact ⟨hc.1, hc.2⟩

theorem floorGuardDims_id (w h : Nat) (hw : 28 ≤ w) (hh : 28 ≤ h) :
    floorGuardDims w h = (w, h) := by
  have hc : ¬ (w < 28 ∨ h < 28) := by omega
  simp [floorGuardDims, hc]

/-- The round-to-integer step moves a value by at most one half. -/
theorem abs_roundHalfEven_sub_le (y : ℚ) : |(roundHalfEven y : ℚ) - y| ≤ 1/2 := by
  have h1 : (⌊y⌋ : ℚ) ≤ y := Int.floor_le y
  have h2 : y < ⌊y⌋ + 1 := Int.lt_floor_add_one y
  unfold roundHalfEven
  rw [abs_le]
  split
  · next h => constructor <;> linarith
  · next h =>
    push_neg at h
    split
    · next h3 => constructor <;> push_cast <;> linarith
    · next h3 =>
      push_neg at h3
      split <;> constructor <;> push_cast <;> linarith

/-- Correct rounding to binary64 carries a relative error of at most
2^(-53) (one half unit in the last place of the 53-bit significand). -/
theorem abs_roundDouble_sub_le (x : ℚ) (hx : 0 < x) :
    |roundDouble x - x| ≤ x * (1 / 2 ^ 53) := by
  unfold roundDouble
  rw [if_neg (not_le.mpr hx)]
  have h2ne : (2:ℚ) ≠ 0 := by norm_num
  have hzpos : ∀ k : ℤ, (0:ℚ) < 2 ^ k := fun k => zpow_pos (by norm_num) k
  have hlogN : ((2:ℕ):ℚ) ^ (Int.log 2 x) ≤ x := Int.zpow_log_le_self (by norm_num) hx
  have hlog : (2:ℚ) ^ (Int.log 2 x) ≤ x := by exact_mod_cast hlogN
  have hx52 : (2:ℚ) ^ (Int.log 2 x - 52) * 2 ^ (52:ℕ) ≤ x := by
    have hL : (Int.log 2 x - 52) + (52:ℤ) = Int.log 2 x := by ring
    have h1 := hlog
    rw [← hL, zpow_add₀ h2ne] at h1
    have h52 : ((2:ℚ) ^ ((52:ℤ))) = 2 ^ (52:ℕ) := by norm_num
    rwa [h52] at h1
  have hxe : x / 2 ^ (Int.log 2 x - 52) * 2 ^ (Int.log 2 x - 52) = x :=
    div_mul_cancel₀ x (hzpos _).ne.symm
  have key : (roundHalfEven (x / 2 ^ (Int.log 2 x - 52)) : ℚ) * 2 ^ (Int.log 2 x - 52) - x
      = ((roundHalfEven (x / 2 ^ (Int.log 2 x - 52)) : ℚ) - x / 2 ^ (Int.log 2 x - 52)) *
          2 ^ (Int.log 2 x - 52) := by
    rw [sub_mul, hxe]
  rw [key, abs_mul, abs_of_pos (hzpos _)]
  have h12 := abs_roundHalfEven_sub_le (x / 2 ^ (Int.log 2 x - 52))
  calc |(roundHalfEven (x / 2 ^ (Int.log 2 x - 52)) : ℚ) - x / 2 ^ (Int.log 2 x - 52)| *
        2 ^ (Int.log 2 x - 52)
      ≤ (1/2) * 2 ^ (Int.log 2 x - 52) :=
        mul_le_mul_of_nonneg_right h12 (hzpos _).le
    _ ≤ x * (1 / 2 ^ 53) := by linarith [hx52]

/-- Lower relative-error bound of binary64 rounding. -/
theorem le_roundDouble (x : ℚ) (hx : 0 < x) :
    x * (1 - 1 / 2 ^ 53) ≤ roundDouble x := by
  have h := abs_roundDouble_sub_le x hx
  rw [abs_le] at h
  nlinarith [h.1]

/-- Upper relative-error bound of binary64 rounding. -/
theorem roundDouble_le (x : ℚ) (hx : 0 < x) :
    roundDouble x ≤ x * (1 + 1 / 2 ^ 53) := by
  have h := abs_roundDouble_sub_le x hx
  rw [abs_le] at h
  nlinarith [h.2]

theorem roundDouble_pos (x : ℚ) (hx : 0 < x) : 0 < roundDouble x :=
  lt_of_lt_of_le (by nlinarith) (le_roundDouble x hx)

/-- `Int.log 2` is characterized by the enclosing powers of two. -/
theorem int_log2_eq (x : ℚ) (k : ℤ) (h1 : (2:ℚ) ^ k ≤ x) (h2 : x < 2 ^ (k + 1)) :
    Int.log 2 x = k := by
  have hx : 0 < x := lt_of_lt_of_le (zpow_pos (by norm_num) k) h1
  have haN : ((2:ℕ):ℚ) ^ (Int.log 2 x) ≤ x := Int.zpow_log_le_self (by norm_num) hx
  have ha : (2:ℚ) ^ (Int.log 2 x) ≤ x := by exact_mod_cast haN
  have hbN : x < ((2:ℕ):ℚ) ^ (Int.log 2 x + 1) := Int.lt_zpow_succ_log_self (by norm_num) x
  have hb : x < (2:ℚ) ^ (Int.log 2 x + 1) := by exact_mod_cast hbN
  have hle : Int.log 2 x ≤ k := by
    by_contra hlt
    push_neg at hlt
    have hk1 : k + 1 ≤ Int.log 2 x := by omega
    have : (2:ℚ) ^ (k + 1) ≤ 2 ^ (Int.log 2 x) :=
      zpow_le_zpow_right₀ (by norm_num) hk1
    linarith
  have hge : k ≤ Int.log 2 x := by
    by_contra hlt
    push_neg at hlt
    have hk1 : Int.log 2 x + 1 ≤ k := by omega
    have : (2:ℚ) ^ (Int.log 2 x + 1) ≤ 2 ^ k :=
      zpow_le_zpow_right₀ (by norm_num) hk1
    linarith
  omega

/-- Evaluation rule for `roundDouble` at a concrete positive input whose
binade and rounded significand are supplied explicitly. -/
theorem roundDouble_eq_div (x : ℚ) (k : ℤ) (m : ℕ) (n : ℤ) (hx : 0 < x)
    (hk : k - 52 = -(m:ℤ))
    (h1 : (2:ℚ) ^ k ≤ x) (h2 : x < 2 ^ (k + 1))
    (hn : roundHalfEven (x * 2 ^ m) = n) :
    roundDouble x = n / 2 ^ m := by
  unfold roundDouble
  rw [if_neg (not_le.mpr hx), int_log2_eq x k h1 h2, hk]
  show (roundHalfEven (x / 2 ^ (-(m:ℤ))) : ℚ) * 2 ^ (-(m:ℤ)) = (n:ℚ) / 2 ^ m
  have harg : x / (2:ℚ) ^ (-(m:ℤ)) = x * 2 ^ m := by
    rw [zpow_neg, div_inv_eq_mul, zpow_natCast]
  rw [harg, hn, zpow_neg, zpow_natCast, ← div_eq_mul_inv]

/-- The scaled product `d * fl(512/m)` with `d ≤ m` stays below
`512·(1 + 2^(-53))`. -/
theorem floatScale_prod_le (d m : Nat) (hdm : d ≤ m) (hm0 : 0 < m) :
    (d:ℚ) * roundDouble (512 / (m:ℚ)) ≤ 512 * (1 + 1 / 2 ^ 53) := by
  have hmQ : (0:ℚ) < (m:ℚ) := by exact_mod_cast hm0
  have hq : (0:ℚ) < 512 / (m:ℚ) := by positivity
  have hs_hi := roundDouble_le _ hq
  have hs_pos := roundDouble_pos _ hq
  have hdmQ : (d:ℚ) ≤ (m:ℚ) := by exact_mod_cast hdm
  have hmt : (m:ℚ) * (512 / (m:ℚ)) = 512 := by
    rw [mul_comm, div_mul_cancel₀ _ hmQ.ne.symm]
  calc (d:ℚ) * roundDouble (512 / (m:ℚ))
      ≤ (m:ℚ) * roundDouble (512 / (m:ℚ)) :=
        mul_le_mul_of_nonneg_right hdmQ hs_pos.le
    _ ≤ (m:ℚ) * (512 / (m:ℚ) * (1 + 1 / 2 ^ 53)) :=
        mul_le_mul_of_nonneg_left hs_hi (by positivity)
    _ = 512 * (1 + 1 / 2 ^ 53) := by rw [← mul_assoc, hmt]

/-- After the float scale, a dimension of at least 28 still floors to at
least 28: the scale factor exceeds 1 by far more than the rounding
error. -/
theorem floatScale_ge_28 (d m : Nat) (hd : 28 ≤ d) (hdm : d ≤ m) (hm : m < 512) :
    (28:ℤ) ≤ ⌊roundDouble ((d:ℚ) * roundDouble (512 / (m:ℚ)))⌋ := by
  have hm0 : 0 < m := by omega
  have hmQ : (0:ℚ) < (m:ℚ) := by exact_mod_cast hm0
  have hm511 : (m:ℚ) ≤ 511 := by exact_mod_cast (by omega : m ≤ 511)
  have hd28 : (28:ℚ) ≤ (d:ℚ) := by exact_mod_cast hd
  have hq : (0:ℚ) < 512 / (m:ℚ) := by positivity
  have hs_lo := le_roundDouble _ hq
  have hs_pos := roundDouble_pos _ hq
  have hds : (0:ℚ) < (d:ℚ) * roundDouble (512 / (m:ℚ)) :=
    mul_pos (by linarith) hs_pos
  have hr_lo := le_roundDouble _ hds
  have h1 : (512:ℚ) / 511 ≤ 512 / (m:ℚ) :=
    div_le_div_of_nonneg_left (by norm_num) hmQ hm511
  have hstep1 : (512/511 : ℚ) * (1 - 1/2^53) ≤ roundDouble (512 / (m:ℚ)) :=
    calc (512/511 : ℚ) * (1 - 1/2^53)
        ≤ (512/(m:ℚ)) * (1 - 1/2^53) :=
          mul_le_mul_of_nonneg_right h1 (by norm_num)
      _ ≤ roundDouble (512 / (m:ℚ)) := hs_lo
  have hstep2 : (28:ℚ) * ((512/511) * (1 - 1/2^53)) ≤
      (d:ℚ) * roundDouble (512 / (m:ℚ)) :=
    mul_le_mul hd28 hstep1 (by norm_num) (by linarith)
  apply Int.le_floor.mpr
  push_cast
  calc (28:ℚ) ≤ 28 * ((512/511) * (1 - 1/2^53)) * (1 - 1/2^53) := by norm_num
    _ ≤ (d:ℚ) * roundDouble (512 / (m:ℚ)) * (1 - 1/2^53) :=
        mul_le_mul_of_nonneg_right hstep2 (by norm_num)
    _ ≤ roundDouble ((d:ℚ) * roundDouble (512 / (m:ℚ))) := hr_lo

/-- Scaling the longest side by the float scale factor floors to at least
511: the two rounding errors can lose at most one pixel of the 512
target. -/
theorem floatScale_max_ge_511 (m : Nat) (hm28 : 28 ≤ m) (hm : m < 512) :
    (511:ℤ) ≤ ⌊roundDouble ((m:ℚ) * roundDouble (512 / (m:ℚ)))⌋ := by
  have hm0 : 0 < m := by omega
  have hmQ : (0:ℚ) < (m:ℚ) := by exact_mod_cast hm0
  have hq : (0:ℚ) < 512 / (m:ℚ) := by positivity
  have hs_lo := le_roundDouble _ hq
  have hs_pos := roundDouble_pos _ hq
  have hms : (0:ℚ) < (m:ℚ) * roundDouble (512 / (m:ℚ)) := mul_pos hmQ hs_pos
  have hr_lo := le_roundDouble _ hms
  have hmt : (m:ℚ) * (512 / (m:ℚ)) = 512 := by
    rw [mul_comm, div_mul_cancel₀ _ hmQ.ne.symm]
  have hstep : (512:ℚ) * (1 - 1/2^53) ≤ (m:ℚ) * roundDouble (512 / (m:ℚ)) := by
    calc (512:ℚ) * (1 - 1/2^53)
        = (m:ℚ) * ((512/(m:ℚ)) * (1 - 1/2^53)) := by rw [← mul_assoc, hmt]
      _ ≤ (m:ℚ) * roundDouble (512 / (m:ℚ)) :=
          mul_le_mul_of_nonneg_left hs_lo hmQ.le
  apply Int.le_floor.mpr
  push_cast
  calc (511:ℚ) ≤ 512 * (1 - 1/2^53) * (1 - 1/2^53) := by norm_num
    _ ≤ (m:ℚ) * roundDouble (512 / (m:ℚ)) * (1 - 1/2^53) :=
        mul_le_mul_of_nonneg_right hstep (by norm_num)
    _ ≤ roundDouble ((m:ℚ) * roundDouble (512 / (m:ℚ))) := hr_lo

/-- Both dimensions are scaled by the same float factor, so the floored
results keep the cross products within one unit: aspect ratio is preserved
to within rounding error (floor plus float rounding). -/
theorem floatScale_cross (a b m : Nat) (ha : 28 ≤ a) (hb : 28 ≤ b)
    (ham : a ≤ m) (hbm : b ≤ m) (hm : m < 512) :
    ⌊roundDouble ((a:ℚ) * roundDouble (512 / (m:ℚ)))⌋ * (b:ℤ) ≤
    (⌊roundDouble ((b:ℚ) * roundDouble (512 / (m:ℚ)))⌋ + 1) * (a:ℤ) := by
  have hm0 : 0 < m := by omega
  have hmQ : (0:ℚ) < (m:ℚ) := by exact_mod_cast hm0
  have haQ : (0:ℚ) < (a:ℚ) := by exact_mod_cast (by omega : 0 < a)
  have hbQ : (0:ℚ) < (b:ℚ) := by exact_mod_cast (by omega : 0 < b)
  have hb511 : (b:ℚ) ≤ 511 := by exact_mod_cast (by omega : b ≤ 511)
  have hq : (0:ℚ) < 512 / (m:ℚ) := by positivity
  have hs_pos := roundDouble_pos _ hq
  have has : (0:ℚ) < (a:ℚ) * roundDouble (512 / (m:ℚ)) := mul_pos haQ hs_pos
  have hbs : (0:ℚ) < (b:ℚ) * roundDouble (512 / (m:ℚ)) := mul_pos hbQ hs_pos
  have hra_hi := roundDouble_le _ has
  have hrb_lo := le_roundDouble _ hbs
  have hprod := floatScale_prod_le a m ham hm0
  have h1 : (⌊roundDouble ((a:ℚ) * roundDouble (512 / (m:ℚ)))⌋ : ℚ) * b ≤
      (a:ℚ) * roundDouble (512 / (m:ℚ)) * (1 + 1/2^53) * b :=
    mul_le_mul_of_nonneg_right (le_trans (Int.floor_le _) hra_hi) hbQ.le
  have h2 : (b:ℚ) * roundDouble (512 / (m:ℚ)) * (1 - 1/2^53) * a <
      ((⌊roundDouble ((b:ℚ) * roundDouble (512 / (m:ℚ)))⌋ : ℚ) + 1) * a :=
    mul_lt_mul_of_pos_right (lt_of_le_of_lt hrb_lo (Int.lt_floor_add_one _)) haQ
  have h3 : (a:ℚ) * roundDouble (512 / (m:ℚ)) * (b:ℚ) ≤ 512 * (1 + 1/2^53) * 511 :=
    calc (a:ℚ) * roundDouble (512 / (m:ℚ)) * (b:ℚ)
        ≤ 512 * (1 + 1/2^53) * (b:ℚ) := mul_le_mul_of_nonneg_right hprod hbQ.le
      _ ≤ 512 * (1 + 1/2^53) * 511 := mul_le_mul_of_nonneg_left hb511 (by norm_num)
  have key : (⌊roundDouble ((a:ℚ) * roundDouble (512 / (m:ℚ)))⌋ : ℚ) * b <
      ((⌊roundDouble ((b:ℚ) * roundDouble (512 / (m:ℚ)))⌋ : ℚ) + 1) * a + 1 := by
    have hrw : (a:ℚ) * roundDouble (512 / (m:ℚ)) * (1 + 1/2^53) * b =
        (b:ℚ) * roundDouble (512 / (m:ℚ)) * (1 - 1/2^53) * a +
        2 * (1/2^53) * ((a:ℚ) * roundDouble (512 / (m:ℚ)) * (b:ℚ)) := by ring
    have hnum : 2 * ((1:ℚ)/2^53) * (512 * (1 + 1/2^53) * 511) < 1 := by norm_num
    have hbound : 2 * ((1:ℚ)/2^53) * ((a:ℚ) * roundDouble (512 / (m:ℚ)) * (b:ℚ)) ≤
        2 * (1/2^53) * (512 * (1 + 1/2^53) * 511) := by linarith [h3]
    linarith [h1, h2]
  have keyZ : ⌊roundDouble ((a:ℚ) * roundDouble (512 / (m:ℚ)))⌋ * (b:ℤ) <
      (⌊roundDouble ((b:ℚ) * roundDouble (512 / (m:ℚ)))⌋ + 1) * (a:ℤ) + 1 := by
    exact_mod_cast key
  omega

theorem upscaleDims_bounds (w h : Nat) (hw : 28 ≤ w) (hh : 28 ≤ h) :
    511 ≤ max (upscaleDims w h).1 (upscaleDims w h).2 ∧
    28 ≤ (upscaleDims w h).1 ∧ 28 ≤ (upscaleDims w h).2 ∧
    ((upscaleDims w h).1 : Int) * h ≤ (((upscaleDims w h).2 : Int) + 1) * w ∧
    ((upscaleDims w h).2 : Int) * w ≤ (((upscaleDims w h).1 : Int) + 1) * h := by
  have hw0 : 0 < w := by omega
  have hh0 : 0 < h := by omega
  by_cases hm : max w h < 512
  · have hu : upscaleDims w h =
        ((⌊roundDouble ((w:ℚ) * roundDouble (512 / ((max w h : Nat):ℚ)))⌋).toNat,
         (⌊roundDouble ((h:ℚ) * roundDouble (512 / ((max w h : Nat):ℚ)))⌋).toNat) := by
      simp only [upscaleDims]
      rw [if_pos hm]
    rw [hu]
    have hW28 := floatScale_ge_28 w (max w h) hw (Nat.le_max_left _ _) hm
    have hH28 := floatScale_ge_28 h (max w h) hh (Nat.le_max_right _ _) hm
    have hWnn : (0:ℤ) ≤ ⌊roundDouble ((w:ℚ) * roundDouble (512 / ((max w h : Nat):ℚ)))⌋ :=
      le_trans (by norm_num) hW28
    have hHnn : (0:ℤ) ≤ ⌊roundDouble ((h:ℚ) * roundDouble (512 / ((max w h : Nat):ℚ)))⌋ :=
      le_trans (by norm_num) hH28
    refine ⟨?_, by omega, by omega, ?_, ?_⟩
    · rcases le_total w h with hwh | hwh
      · have hmx : max w h = h := Nat.max_eq_right hwh
        have h511 := floatScale_max_ge_511 (max w h)
          (le_trans hh (Nat.le_max_right _ _)) hm
        rw [hmx] at h511 ⊢
        exact le_trans (by omega) (Nat.le_max_right _ _)
      · have hmx : max w h = w := Nat.max_eq_left hwh
        have h511 := floatScale_max_ge_511 (max w h)
          (le_trans hw (Nat.le_max_left _ _)) hm
        rw [hmx] at h511 ⊢
        exact le_trans (by omega) (Nat.le_max_left _ _)
    · simp only
      rw [Int.toNat_of_nonneg hWnn, Int.toNat_of_nonneg hHnn]
      exact floatScale_cross w h (max w h) hw hh (Nat.le_max_left _ _)
        (Nat.le_max_right _ _) hm
    · simp only
      rw [Int.toNat_of_nonneg hWnn, Int.toNat_of_nonneg hHnn]
      exact floatScale_cross h w (max w h) hh hw (Nat.le_max_right _ _)
        (Nat.le_max_left _ _) hm
  · have hu : upscaleDims w h = (w, h) := by
      simp only [upscaleDims]
      rw [if_neg hm]
    rw [hu]
    have hwZ : (0:ℤ) < (w:ℤ) := by exact_mod_cast hw0
    have hhZ : (0:ℤ) < (h:ℤ) := by exact_mod_cast hh0
    refine ⟨by omega, hw, hh, ?_, ?_⟩
    · simp only
      nlinarith [hwZ, hhZ]
    · simp only
      nlinarith [hwZ, hhZ]

/-! ## Claims about the Image Normalizer -/

/-- C4 (amended): for every input, `preprocess_image` produces dimensions
that are both at least the hard floor of 28 and whose longer side is at
least 511 — the 512 target can be undershot by one pixel because the
scale factor and the products are computed in binary64 floats and then
truncated (e.g. `int(49 * (512/49)) = 511`).  The aspect ratio is kept to
within one rounding unit (floor plus float rounding, stated as non-strict
cross-product bounds) *provided both input dimensions are already at
least 28* — the hard-floor resize itself stretches each deficient axis
independently to 28 and does not preserve aspect ratio.  The hard-floor
resize runs before the enhancement steps, none of which changes the
dimensions. -/
theorem c4_preprocess_dims_spec (w h : Nat) :
    511 ≤ max (preprocessDims w h).1 (preprocessDims w h).2 ∧
    28 ≤ (preprocessDims w h).1 ∧
    28 ≤ (preprocessDims w h).2 ∧
    (28 ≤ w → 28 ≤ h →
      ((preprocessDims w h).1 : Int) * h ≤ (((preprocessDims w h).2 : Int) + 1) * w ∧
      ((preprocessDims w h).2 : Int) * w ≤ (((preprocessDims w h).1 : Int) + 1) * h) := by
  have hfg := floorGuardDims_le w h
  have hup := upscaleDims_bounds (floorGuardDims w h).1 (floorGuardDims w h).2 hfg.1 hfg.2
  have hpre : preprocessDims w h =
      upscaleDims (floorGuardDims w h).1 (floorGuardDims w h).2 := rfl
  rw [hpre]
  refine ⟨hup.1, hup.2.1, hup.2.2.1, ?_⟩
  intro hw2 hh2
  have hid : floorGuardDims w h = (w, h) := floorGuardDims_id w h hw2 hh2
  rw [hid] at hup ⊢
  exact ⟨hup.2.2.2.1, hup.2.2.2.2⟩

/-- C4 witness: the amended statement at a concrete 50×100 input. -/
theorem c4_preprocess_dims_witness :
    511 ≤ max (preprocessDims 50 100).1 (preprocessDims 50 100).2 ∧
    ((preprocessDims 50 100).1 : Int) * 100 ≤ (((preprocessDims 50 100).2 : Int) + 1) * 50 :=
  ⟨(c4_preprocess_dims_spec 50 100).1,
   ((c4_preprocess_dims_spec 50 100).2.2.2 (by norm_num) (by norm_num)).1⟩

/-- Concrete binary64 evaluation: `512/49` rounds to the double
`5882252574524729 · 2^(-49)` (the exact quotient's binade is `[8, 16)` and
its 53-bit significand rounds down, the fractional part being 23/49). -/
theorem roundDouble_512_div_49 :
    roundDouble (512 / 49) = 5882252574524729 / 2 ^ 49 := by
  apply roundDouble_eq_div (512/49) 3 49 5882252574524729 (by norm_num) (by norm_num)
    (by norm_num) (by norm_num)
  have hfl : ⌊(512/49 : ℚ) * 2 ^ 49⌋ = 5882252574524729 := by norm_num
  unfold roundHalfEven
  rw [hfl]
  norm_num

/-- Concrete binary64 evaluation: `49 * fl(512/49)` rounds to
`9007199254740991 · 2^(-44)` ≈ 511.99999999999994 — strictly below
512. -/
theorem roundDouble_49_mul :
    roundDouble (49 * (5882252574524729 / 2 ^ 49)) = 9007199254740991 / 2 ^ 44 := by
  apply roundDouble_eq_div _ 8 44 9007199254740991 (by norm_num) (by norm_num)
    (by norm_num) (by norm_num)
  have hfl : ⌊(49 * (5882252574524729 / 2 ^ 49) : ℚ) * 2 ^ 44⌋ = 9007199254740991 := by
    norm_num
  unfold roundHalfEven
  rw [hfl]
  norm_num

/-- Concrete binary64 evaluation: `512/100` rounds to the double
`5764607523034235 · 2^(-50)` (fractional part 88/100 rounds up). -/
theorem roundDouble_512_div_100 :
    roundDouble (512 / 100) = 5764607523034235 / 2 ^ 50 := by
  apply roundDouble_eq_div (512/100) 2 50 5764607523034235 (by norm_num) (by norm_num)
    (by norm_num) (by norm_num)
  have hfl : ⌊(512/100 : ℚ) * 2 ^ 50⌋ = 5764607523034234 := by norm_num
  unfold roundHalfEven
  rw [hfl]
  norm_num

/-- Concrete binary64 evaluation: `28 * fl(512/100)` rounds to
`5044031582654956 · 2^(-45)` ≈ 143.36. -/
theorem roundDouble_28_mul :
    roundDouble (28 * (5764607523034235 / 2 ^ 50)) = 5044031582654956 / 2 ^ 45 := by
  apply roundDouble_eq_div _ 7 45 5044031582654956 (by norm_num) (by norm_num)
    (by norm_num) (by norm_num)
  have hfl : ⌊(28 * (5764607523034235 / 2 ^ 50) : ℚ) * 2 ^ 45⌋ = 5044031582654955 := by
    norm_num
  unfold roundHalfEven
  rw [hfl]
  norm_num

/-- Concrete binary64 evaluation: `100 * fl(512/100)` rounds to exactly
512 (the exact product is within half an ulp above 512). -/
theorem roundDouble_100_mul :
    roundDouble (100 * (5764607523034235 / 2 ^ 50)) = 4503599627370496 / 2 ^ 43 := by
  apply roundDouble_eq_div _ 9 43 4503599627370496 (by norm_num) (by norm_num)
    (by norm_num) (by norm_num)
  have hfl : ⌊(100 * (5764607523034235 / 2 ^ 50) : ℚ) * 2 ^ 43⌋ = 4503599627370496 := by
    norm_num
  unfold roundHalfEven
  rw [hfl]
  norm_num

/-- C4 counterexample: the original claim fails in two ways.  (i) A 49×49
input passes the hard floor untouched and upscales to 511×511 — the float
computation `int(49 * (512/49))` loses the 512 target by one pixel, so
"longer side is at least 512" is false.  (ii) A 1×100 input has its width
stretched to 28 by the hard-floor resize and then upscales to 143×512; an
aspect-preserving scale would give a width of about 5, so "preserving the
input's aspect ratio to within rounding error" is false (143·100 exceeds
(512+1)·1 by far more than one rounding unit). -/
theorem c4_counterexample_aspect_and_512 :
    preprocessDims 49 49 = (511, 511) ∧
    ¬ (512 ≤ max (preprocessDims 49 49).1 (preprocessDims 49 49).2) ∧
    preprocessDims 1 100 = (143, 512) ∧
    ¬ ((143:Int) * 100 < (512 + 1) * 1) := by
  have h49 : preprocessDims 49 49 = (511, 511) := by
    have e1 : ((max (49:ℕ) 49 : Nat) : ℚ) = 49 := by norm_num
    have e2 : preprocessDims 49 49 = upscaleDims 49 49 := by
      have : floorGuardDims 49 49 = (49, 49) := floorGuardDims_id 49 49 (by norm_num) (by norm_num)
      simp [preprocessDims, this]
    rw [e2]
    simp only [upscaleDims]
    rw [if_pos (by norm_num)]
    rw [show (512 / ((max (49:ℕ) 49 : Nat) : ℚ)) = 512 / 49 by rw [e1]]
    rw [roundDouble_512_div_49]
    rw [show ((49:ℕ):ℚ) * (5882252574524729 / 2 ^ 49) =
        49 * (5882252574524729 / 2 ^ 49) by norm_num]
    rw [roundDouble_49_mul]
    have hfl : ⌊(9007199254740991 / 2 ^ 44 : ℚ)⌋ = 511 := by norm_num
    rw [hfl]
    rfl
  have h1100 : preprocessDims 1 100 = (143, 512) := by
    have e0 : floorGuardDims 1 100 = (28, 100) := by
      simp [floorGuardDims]
    have e1 : ((max (28:ℕ) 100 : Nat) : ℚ) = 100 := by norm_num
    show upscaleDims (floorGuardDims 1 100).1 (floorGuardDims 1 100).2 = (143, 512)
    rw [e0]
    simp only [upscaleDims]
    rw [if_pos (by norm_num)]
    rw [show (512 / ((max (28:ℕ) 100 : Nat) : ℚ)) = 512 / 100 by rw [e1]]
    rw [roundDouble_512_div_100]
    rw [show ((28:ℕ):ℚ) * (5764607523034235 / 2 ^ 50) =
        28 * (5764607523034235 / 2 ^ 50) by norm_num]
    rw [show ((100:ℕ):ℚ) * (5764607523034235 / 2 ^ 50) =
        100 * (5764607523034235 / 2 ^ 50) by norm_num]
    rw [roundDouble_28_mul, roundDouble_100_mul]
    have hfl1 : ⌊(5044031582654956 / 2 ^ 45 : ℚ)⌋ = 143 := by norm_num
    have hfl2 : ⌊(4503599627370496 / 2 ^ 43 : ℚ)⌋ = 512 := by norm_num
    rw [hfl1, hfl2]
    rfl
  refine ⟨h49, ?_, h1100, by norm_num⟩
  rw [h49]
  norm_num

/-- C5: with no vision-model provider configured, `extract_handwriting`
returns a failure result with `success = False` and a non-empty error
string, issues no provider request at all, and never reaches the
translation step. -/
theorem c5_unconfigured_fails_without_network
    (cfg : AgentConfig) (pb : ProviderBehavior) (filename language : String)
    (h : cfg.hfConfigured = false) :
    (extractHandwriting cfg pb filename language).1.lookup "success" = some (.bool false) ∧
    (extractHandwriting cfg pb filename language).1.lookup "error" =
      some (.str "HuggingFace client not initialized") ∧
    ("HuggingFace client not initialized" : String) ≠ "" ∧
    (extractHandwriting cfg pb filename language).2.visionCalls = 0 ∧
    (extractHandwriting cfg pb filename language).2.translateCalls = 0 := by
  obtain ⟨hf, gq⟩ := cfg
  cases h
  exact ⟨rfl, rfl, by decide, rfl, rfl⟩

/-- C5 witness: the statement at a concrete unconfigured agent. -/
theorem c5_unconfigured_witness :
    (extractHandwriting ⟨false, true⟩ ⟨none, .ok "\x7b\"a\": 1\x7d", .ok "\x7b\"a\": 1\x7d"⟩
        "form.jpg" "Spanish").1.lookup "success" = some (.bool false) ∧
    (extractHandwriting ⟨false, true⟩ ⟨none, .ok "\x7b\"a\": 1\x7d", .ok "\x7b\"a\": 1\x7d"⟩
        "form.jpg" "Spanish").1.lookup "error" =
      some (.str "HuggingFace client not initialized") ∧
    ("HuggingFace client not initialized" : String) ≠ "" ∧
    (extractHandwriting ⟨false, true⟩ ⟨none, .ok "\x7b\"a\": 1\x7d", .ok "\x7b\"a\": 1\x7d"⟩
        "form.jpg" "Spanish").2.visionCalls = 0 ∧
    (extractHandwriting ⟨false, true⟩ ⟨none, .ok "\x7b\"a\": 1\x7d", .ok "\x7b\"a\": 1\x7d"⟩
        "form.jpg" "Spanish").2.translateCalls = 0 :=
  c5_unconfigured_fails_without_network ⟨false, true⟩
    ⟨none, .ok "\x7b\"a\": 1\x7d", .ok "\x7b\"a\": 1\x7d"⟩ "form.jpg" "Spanish" rfl

/-- C6: when the language is non-English and the translation provider call
raises, the run still succeeds and the envelope carries the original,
untranslated structured result. -/
theorem c6_translation_failure_keeps_original
    (cfg : AgentConfig) (pb : ProviderBehavior) (filename language text : String)
    (e : PyErr)
    (hhf : cfg.hfConfigured = true) (hgq : cfg.groqConfigured = true)
    (him : pb.imageError = none) (hv : pb.visionResult = .ok text)
    (ht : pb.transResult = .error e)
    (hlang : pyLower language ≠ "english") :
    (extractHandwriting cfg pb filename language).1.lookup "success" = some (.bool true) ∧
    (extractHandwriting cfg pb filename language).1.lookup "extracted_data" =
      some (.json (parseJsonResponse text)) := by
  obtain ⟨hf, gq⟩ := cfg
  obtain ⟨ie, vr, tr⟩ := pb
  cases hhf; cases hgq; cases him; cases hv; cases ht
  simp only [extractHandwriting, extractHandwritingHuggingface, translateJsonToEnglish]
  simp [hlang, List.lookup]

/-- C6 witness: the statement at a concrete Spanish run whose translation
call raises. -/
theorem c6_translation_failure_witness :
    (extractHandwriting ⟨true, true⟩
        ⟨none, .ok "\x7b\"a\": 1\x7d", .error ⟨"APIError", "rate limited"⟩⟩
        "form.jpg" "Spanish").1.lookup "success" = some (.bool true) ∧
    (extractHandwriting ⟨true, true⟩
        ⟨none, .ok "\x7b\"a\": 1\x7d", .error ⟨"APIError", "rate limited"⟩⟩
        "form.jpg" "Spanish").1.lookup "extracted_data" =
      some (.json (parseJsonResponse "\x7b\"a\": 1\x7d")) :=
  c6_translation_failure_keeps_original ⟨true, true⟩
    ⟨none, .ok "\x7b\"a\": 1\x7d", .error ⟨"APIError", "rate limited"⟩⟩
    "form.jpg" "Spanish" "\x7b\"a\": 1\x7d" ⟨"APIError", "rate limited"⟩
    rfl rfl rfl rfl rfl (by decide)

/-- C7: when the language equals "English" case-insensitively, the
Translation Client is never invoked — whatever the translation-provider
configuration — and the parsed structured result passes through to the
envelope unchanged. -/
theorem c7_english_skips_translation
    (cfg : AgentConfig) (pb : ProviderBehavior) (filename language text : String)
    (hhf : cfg.hfConfigured = true)
    (him : pb.imageError = none) (hv : pb.visionResult = .ok text)
    (hlang : pyLower language = "english") :
    (extractHandwriting cfg pb filename language).2.translateCalls = 0 ∧
    (extractHandwriting cfg pb filename language).2.translationInputs = [] ∧
    (extractHandwriting cfg pb filename language).1.lookup "extracted_data" =
      some (.json (parseJsonResponse text)) := by
  obtain ⟨hf, gq⟩ := cfg
  obtain ⟨ie, vr, tr⟩ := pb
  cases hhf; cases him; cases hv
  simp only [extractHandwriting, extractHandwritingHuggingface]
  simp [hlang, List.lookup]

/-- C7 witness: the statement at a concrete "English" run with a configured
translation provider. -/
theorem c7_english_skips_translation_witness :
    (extractHandwriting ⟨true, true⟩ ⟨none, .ok "\x7b\"a\": 1\x7d", .ok "\x7b\"b\": 2\x7d"⟩
        "form.jpg" "English").2.translateCalls = 0 ∧
    (extractHandwriting ⟨true, true⟩ ⟨none, .ok "\x7b\"a\": 1\x7d", .ok "\x7b\"b\": 2\x7d"⟩
        "form.jpg" "English").2.translationInputs = [] ∧
    (extractHandwriting ⟨true, true⟩ ⟨none, .ok "\x7b\"a\": 1\x7d", .ok "\x7b\"b\": 2\x7d"⟩
        "form.jpg" "English").1.lookup "extracted_data" =
      some (.json (parseJsonResponse "\x7b\"a\": 1\x7d")) :=
  c7_english_skips_translation ⟨true, true⟩
    ⟨none, .ok "\x7b\"a\": 1\x7d", .ok "\x7b\"b\": 2\x7d"⟩ "form.jpg" "English" "\x7b\"a\": 1\x7d"
    rfl rfl rfl (by decide)

/-- C8 (amended): every result of `extract_handwriting` carries a boolean
`success`; exactly one of `extracted_data` (when `success` is true) or
`error` (when `success` is false) is present; `filename` and `message` are
present in every result of a configured agent, while the
provider-not-configured result consists of exactly the keys `success`,
`error` and `prompt` — it carries no `filename` and no `message`. -/
theorem c8_envelope_invariant
    (cfg : AgentConfig) (pb : ProviderBehavior) (filename language : String) :
    ((extractHandwriting cfg pb filename language).1.lookup "success" = some (.bool true) ∨
     (extractHandwriting cfg pb filename language).1.lookup "success" = some (.bool false)) ∧
    ((extractHandwriting cfg pb filename language).1.lookup "success" = some (.bool true) →
      (∃ j, (extractHandwriting cfg pb filename language).1.lookup "extracted_data" =
        some (.json j)) ∧
      (extractHandwriting cfg pb filename language).1.lookup "error" = none) ∧
    ((extractHandwriting cfg pb filename language).1.lookup "success" = some (.bool false) →
      (∃ e, (extractHandwriting cfg pb filename language).1.lookup "error" = some (.str e)) ∧
      (extractHandwriting cfg pb filename language).1.lookup "extracted_data" = none) ∧
    (cfg.hfConfigured = true →
      (extractHandwriting cfg pb filename language).1.lookup "filename" =
        some (.str filename) ∧
      ∃ m, (extractHandwriting cfg pb filename language).1.lookup "message" =
        some (.str m)) ∧
    (cfg.hfConfigured = false →
      (extractHandwriting cfg pb filename language).1.map Prod.fst =
        ["success", "error", "prompt"]) := by
  obtain ⟨hf, gq⟩ := cfg
  obtain ⟨ie, vr, tr⟩ := pb
  cases hf
  · exact ⟨Or.inr rfl,
      fun h => Bool.noConfusion (PyVal.bool.inj (Option.some.inj h)),
      fun _ => ⟨⟨_, rfl⟩, rfl⟩,
      fun h => Bool.noConfusion h,
      fun _ => rfl⟩
  · cases ie
    · cases vr with
      | error e =>
        exact ⟨Or.inr rfl,
          fun h => Bool.noConfusion (PyVal.bool.inj (Option.some.inj h)),
          fun _ => ⟨⟨_, rfl⟩, rfl⟩,
          fun _ => ⟨rfl, ⟨_, rfl⟩⟩,
          fun h => Bool.noConfusion h⟩
      | ok text =>
        exact ⟨Or.inl rfl,
          fun _ => ⟨⟨_, rfl⟩, rfl⟩,
          fun h => Bool.noConfusion (PyVal.bool.inj (Option.some.inj h)),
          fun _ => ⟨rfl, ⟨_, rfl⟩⟩,
          fun h => Bool.noConfusion h⟩
    · exact ⟨Or.inr rfl,
        fun h => Bool.noConfusion (PyVal.bool.inj (Option.some.inj h)),
        fun _ => ⟨⟨_, rfl⟩, rfl⟩,
        fun _ => ⟨rfl, ⟨_, rfl⟩⟩,
        fun h => Bool.noConfusion h⟩

/-- C8 witness: the configured-agent part at a concrete success run and the
unconfigured part at a concrete unconfigured run. -/
theorem c8_envelope_invariant_witness :
    ((extractHandwriting ⟨true, false⟩ ⟨none, .ok "\x7b\"a\": 1\x7d", .ok "x"⟩
        "form.jpg" "English").1.lookup "filename" = some (.str "form.jpg") ∧
     ∃ m, (extractHandwriting ⟨true, false⟩ ⟨none, .ok "\x7b\"a\": 1\x7d", .ok "x"⟩
        "form.jpg" "English").1.lookup "message" = some (.str m)) ∧
    (extractHandwriting ⟨false, false⟩ ⟨none, .ok "\x7b\"a\": 1\x7d", .ok "x"⟩
        "form.jpg" "English").1.map Prod.fst = ["success", "error", "prompt"] :=
  ⟨(c8_envelope_invariant ⟨true, false⟩ ⟨none, .ok "\x7b\"a\": 1\x7d", .ok "x"⟩
      "form.jpg" "English").2.2.2.1 rfl,
   (c8_envelope_invariant ⟨false, false⟩ ⟨none, .ok "\x7b\"a\": 1\x7d", .ok "x"⟩
      "form.jpg" "English").2.2.2.2 rfl⟩

/-- C8 counterexample: the claim requires every result — including the
provider-not-configured one — to contain a filename and a message; the
not-configured result contains neither key. -/
theorem c8_counterexample_unconfigured_lacks_filename :
    (extractHandwriting ⟨false, false⟩ ⟨none, .ok "x", .ok "y"⟩
        "form.jpg" "English").1.lookup "filename" = none ∧
    (extractHandwriting ⟨false, false⟩ ⟨none, .ok "x", .ok "y"⟩
        "form.jpg" "English").1.lookup "message" = none :=
  ⟨rfl, rfl⟩

/-- C9 (amended): a successful run's envelope holds `success = True`, the
extracted data, the prompt and a message, and exactly those keys — the
elapsed duration is computed only for trace metadata and is not part of
the envelope.  The message carries the " and translated to English"
indicator exactly when the requested language is not English
(case-insensitively) — i.e. it tracks the language condition, not whether
a translation was actually performed. -/
theorem c9_success_envelope
    (cfg : AgentConfig) (pb : ProviderBehavior) (filename language text : String)
    (hhf : cfg.hfConfigured = true)
    (him : pb.imageError = none) (hv : pb.visionResult = .ok text) :
    (extractHandwriting cfg pb filename language).1.map Prod.fst =
      ["success", "filename", "extracted_data", "prompt", "message"] ∧
    (extractHandwriting cfg pb filename language).1.lookup "success" = some (.bool true) ∧
    (∃ j, (extractHandwriting cfg pb filename language).1.lookup "extracted_data" =
      some (.json j)) ∧
    (pyLower language = "english" →
      (extractHandwriting cfg pb filename language).1.lookup "message" =
        some (.str "Handwriting extracted successfully using HuggingFace")) ∧
    (pyLower language ≠ "english" →
      (extractHandwriting cfg pb filename language).1.lookup "message" =
        some (.str ("Handwriting extracted successfully using HuggingFace" ++
          " and translated to English"))) ∧
    pyEndsWith "Handwriting extracted successfully using HuggingFace"
      " and translated to English" = false ∧
    pyEndsWith ("Handwriting extracted successfully using HuggingFace" ++
      " and translated to English") " and translated to English" = true := by
  obtain ⟨hf, gq⟩ := cfg
  obtain ⟨ie, vr, tr⟩ := pb
  cases hhf; cases him; cases hv
  refine ⟨rfl, rfl, ⟨_, rfl⟩, fun h => ?_, fun h => ?_, by decide, by decide⟩
  · simp [extractHandwriting, extractHandwritingHuggingface, h, List.lookup]
  · simp [extractHandwriting, extractHandwritingHuggingface, h, List.lookup]

/-- C9 witness: the statement at a concrete English-language success
run. -/
theorem c9_success_envelope_witness :
    (extractHandwriting ⟨true, true⟩ ⟨none, .ok "\x7b\"a\": 1\x7d", .ok "x"⟩
        "form.jpg" "English").1.map Prod.fst =
      ["success", "filename", "extracted_data", "prompt", "message"] ∧
    (extractHandwriting ⟨true, true⟩ ⟨none, .ok "\x7b\"a\": 1\x7d", .ok "x"⟩
        "form.jpg" "English").1.lookup "message" =
      some (.str "Handwriting extracted successfully using HuggingFace") :=
  ⟨(c9_success_envelope ⟨true, true⟩ ⟨none, .ok "\x7b\"a\": 1\x7d", .ok "x"⟩
      "form.jpg" "English" "\x7b\"a\": 1\x7d" rfl rfl rfl).1,
   (c9_success_envelope ⟨true, true⟩ ⟨none, .ok "\x7b\"a\": 1\x7d", .ok "x"⟩
      "form.jpg" "English" "\x7b\"a\": 1\x7d" rfl rfl rfl).2.2.2.1 (by decide)⟩

/-- C9 counterexample: with language "Spanish" and *no* translation
provider configured, no translation is performed (zero translation calls),
yet the success message still carries the translation-performed indicator —
so the indicator does not appear "exactly when translation was actually
performed"; and the envelope's keys include no duration field. -/
theorem c9_counterexample_indicator_without_translation :
    (extractHandwriting ⟨true, false⟩ ⟨none, .ok "\x7b\"a\": 1\x7d", .ok "x"⟩
        "form.jpg" "Spanish").2.translateCalls = 0 ∧
    (extractHandwriting ⟨true, false⟩ ⟨none, .ok "\x7b\"a\": 1\x7d", .ok "x"⟩
        "form.jpg" "Spanish").1.lookup "message" =
      some (.str ("Handwriting extracted successfully using HuggingFace" ++
        " and translated to English")) ∧
    pyEndsWith ("Handwriting extracted successfully using HuggingFace" ++
      " and translated to English") " and translated to English" = true ∧
    (extractHandwriting ⟨true, false⟩ ⟨none, .ok "\x7b\"a\": 1\x7d", .ok "x"⟩
        "form.jpg" "Spanish").1.map Prod.fst =
      ["success", "filename", "extracted_data", "prompt", "message"] :=
  ⟨rfl, rfl, by decide, rfl⟩

/-- C10: when the vision response fails JSON parsing (yielding the
`raw_text` fallback) and the language is non-English with a translation
provider configured, that fallback mapping itself is serialized into the
translation request, and the translator's re-parsed output replaces it in
the envelope. -/
theorem c10_fallback_goes_through_translation
    (cfg : AgentConfig) (pb : ProviderBehavior) (filename language v t : String)
    (hhf : cfg.hfConfigured = true) (hgq : cfg.groqConfigured = true)
    (him : pb.imageError = none) (hv : pb.visionResult = .ok v)
    (ht : pb.transResult = .ok t)
    (hparse : jsonLoads (stripCodeFences v) = none)
    (hlang : pyLower language ≠ "english") :
    (extractHandwriting cfg pb filename language).2.translationInputs =
      [.obj [("raw_text", .str (stripCodeFences v))]] ∧
    (extractHandwriting cfg pb filename language).1.lookup "extracted_data" =
      some (.json (parseJsonResponse t)) := by
  obtain ⟨hf, gq⟩ := cfg
  obtain ⟨ie, vr, tr⟩ := pb
  cases hhf; cases hgq; cases him; cases hv; cases ht
  have hp := parseJsonResponse_of_loads_none v hparse
  simp only [extractHandwriting, extractHandwritingHuggingface, translateJsonToEnglish]
  simp [hlang, hp, List.lookup]

/-- C10 witness: a concrete Spanish run whose vision response is not JSON
and whose translator answers with valid JSON. -/
theorem c10_fallback_goes_through_translation_witness :
    (extractHandwriting ⟨true, true⟩ ⟨none, .ok "not json", .ok "\x7b\"x\": 1\x7d"⟩
        "form.jpg" "Spanish").2.translationInputs =
      [.obj [("raw_text", .str (stripCodeFences "not json"))]] ∧
    (extractHandwriting ⟨true, true⟩ ⟨none, .ok "not json", .ok "\x7b\"x\": 1\x7d"⟩
        "form.jpg" "Spanish").1.lookup "extracted_data" =
      some (.json (parseJsonResponse "\x7b\"x\": 1\x7d")) :=
  c10_fallback_goes_through_translation ⟨true, true⟩
    ⟨none, .ok "not json", .ok "\x7b\"x\": 1\x7d"⟩ "form.jpg" "Spanish"
    "not json" "\x7b\"x\": 1\x7d" rfl rfl rfl rfl rfl rfl (by decide)

end FormExtractor
